import Mathlib

/-!
Verification of the page-transcription pipeline of `process-pdf-for-studyfellow`.

The repository is a set of batch scripts that download PDF documents, split
them into page groups, send each group to a remote generative model for
transcription, and persist the results in a hosted database.  This file is a
shallow embedding of the pure decision logic of those scripts:

* `src/process-processed/transcribe_error_page6.py` — error-recovery pipeline
  (`extract_specific_pages_from_pdf`, `transcribe_pdf`, `save_to_firestore`,
  `process_page_batch`, `get_missing_pages`, `process_error_pages`);
* `src/process-unprocessed/transcribe_documents_onepage_6.py` — first-pass
  one-page pipeline (`split_pdf_in_memory`, `transcribe_pdf`,
  `save_to_firestore`, `process_page_batch`, `process_documents`);
* `src/transcribe_documents_twopage.py` — first-pass cover+two-page pipeline
  (`split_pdf_in_memory`, `transcribe_pdf`, `save_to_supabase`,
  `process_documents`);
* `src/transcribe_document.py` — cover+two-page variant whose
  `save_to_supabase` writes `start_page`/`end_page` and no `document_id`;
* `src/transcribe_workbook.py` — workbook variant (per-problem page ranges,
  CLI entry point).

Remote calls are modelled by their observable outcomes: the generative API
call either raises (modelled by `ApiResult.failure`) or returns a response
with a candidate count and a text; object-store downloads either fail or
return a PDF with a concrete page count.  PDF bytes are irrelevant to every
claim, so a page group is modelled by the list of 1-based page numbers it
contains, exactly the pages the Python code adds to each `PdfWriter`.
-/


/-- Outcome of one call to the generative model, as observed by
`transcribe_pdf`: either the call raised an exception, or it returned a
response with `candidates` (modelled by their count) and a `text`. -/
inductive ApiResult where
  | failure : ApiResult
  | response : Nat → String → ApiResult
deriving DecidableEq

/-- `transcribe_pdf` of `src/process-processed/transcribe_error_page6.py`
(lines 43-83): no candidates ⟹ `""`; empty text ⟹ `"内容なし"`; an exception
is caught and converted to `"内容なし"`; otherwise the text is returned. -/
def transcribe_error : ApiResult → String
  | ApiResult.failure => "内容なし"
  | ApiResult.response 0 _ => ""
  | ApiResult.response (_ + 1) t => if t = "" then "内容なし" else t

/-- `transcribe_pdf` of
`src/process-unprocessed/transcribe_documents_onepage_6.py` (lines 43-83):
no candidates, empty text and caught exceptions all yield `""`. -/
def transcribe_onepage : ApiResult → String
  | ApiResult.failure => ""
  | ApiResult.response 0 _ => ""
  | ApiResult.response (_ + 1) t => if t = "" then "" else t

/-- `transcribe_pdf` of `src/transcribe_documents_twopage.py` (lines 44-81):
same outcome mapping as the one-page first-pass variant. -/
def transcribe_twopage : ApiResult → String
  | ApiResult.failure => ""
  | ApiResult.response 0 _ => ""
  | ApiResult.response (_ + 1) t => if t = "" then "" else t

/-- `response.candidates` is empty: the moderation/availability block case,
which both `transcribe_pdf` variants turn into `""`. -/
def isBlocked : ApiResult → Bool
  | ApiResult.response 0 _ => true
  | _ => false

/-- One row of the `document_transcriptions` table/collection.  Fields are
optional because the different scripts insert different column sets. -/
structure TransRow where
  documentId : Option Nat
  page : Option Nat
  startPage : Option Nat
  endPage : Option Nat
  transcription : String
  fileName : String
deriving DecidableEq

/-- `save_to_firestore` of both Firestore pipelines
(`transcribe_error_page6.py` lines 85-98,
`transcribe_documents_onepage_6.py` lines 85-98): inserts
`{transcription, page, file_name, document_id}`. -/
def save_to_firestore (transcription : String) (page : Nat) (fileName : String)
    (documentId : Nat) : TransRow :=
  { documentId := some documentId, page := some page, startPage := none,
    endPage := none, transcription := transcription, fileName := fileName }

/-- `save_to_supabase` of `src/transcribe_documents_twopage.py` (lines 83-98):
inserts `{transcription, page, file_name, document_id}`. -/
def save_to_supabase_twopage (transcription : String) (page : Nat)
    (fileName : String) (documentId : Nat) : TransRow :=
  { documentId := some documentId, page := some page, startPage := none,
    endPage := none, transcription := transcription, fileName := fileName }

/-- `save_to_supabase` of `src/transcribe_document.py` (lines 96-111):
inserts `{transcription, start_page, end_page, file_name}` — note the payload
contains no `document_id` column. -/
def save_to_supabase_document (transcription : String) (startPage endPage : Nat)
    (fileName : String) : TransRow :=
  { documentId := none, page := none, startPage := some startPage,
    endPage := some endPage, transcription := transcription,
    fileName := fileName }

/-- Bulk deletion of transcription rows by document id
(`delete().eq('document_id', doc_id)` / the Firestore query-and-delete loop):
removes exactly the rows whose `document_id` equals the given id. -/
def deleteTranscriptionsFor (docId : Nat) (rows : List TransRow) : List TransRow :=
  rows.filter (fun r => decide (r.documentId ≠ some docId))

/-- `process_page_batch` of `transcribe_error_page6.py` (lines 100-111),
restricted to its persistence decision: each `(page, api outcome)` is
transcribed and saved iff the resulting string is truthy (non-empty). -/
def errorBatchSaves (batch : List (Nat × ApiResult)) : List (Nat × String) :=
  batch.filterMap (fun pr =>
    let t := transcribe_error pr.2
    if t = "" then none else some (pr.1, t))

/-- `process_page_batch` of `transcribe_documents_onepage_6.py`
(lines 100-111): saved iff the transcription string is truthy. -/
def onepageBatchSaves (batch : List (Nat × ApiResult)) : List (Nat × String) :=
  batch.filterMap (fun pr =>
    let t := transcribe_onepage pr.2
    if t = "" then none else some (pr.1, t))

/-- The per-group loop of `process_documents` in
`transcribe_documents_twopage.py` (lines 133-139): `save_to_supabase` is
called unconditionally on every transcription result, empty or not. -/
def twopageDocSaves (items : List (Nat × ApiResult)) : List (Nat × String) :=
  items.map (fun pr => (pr.1, transcribe_twopage pr.2))

/-- The `existing_pages` set built by `get_missing_pages`
(`transcribe_error_page6.py` lines 116-123): page values of the recorded
rows, skipping falsy values (`if page_num:` drops `0`/missing). -/
def existingPages (recorded : List Nat) : List Nat :=
  recorded.filter (fun p => decide (p ≠ 0))

/-- `get_missing_pages` (`transcribe_error_page6.py` lines 113-138), given
the recorded page numbers: the ascending list of pages of `1..total_pages`
that are not recorded (`set(range(1, total_pages+1)) - existing_pages`,
sorted).  `List.range' 1 total` is exactly `[1, ..., total]` in ascending
order without duplicates, so filtering it is that sorted set difference. -/
def get_missing_pages (recorded : List Nat) (total : Nat) : List Nat :=
  (List.range' 1 total).filter (fun p => decide (p ∉ existingPages recorded))

/-- `extract_specific_pages_from_pdf` (`transcribe_error_page6.py` lines
22-41), by page metadata: each requested 1-based page number that does not
exceed the source PDF's page count becomes one singleton group, in request
order (`if page_num <= len(reader.pages)` silently skips the rest). -/
def extractGroups (total : Nat) (pages : List Nat) : List (List Nat) :=
  (pages.filter (fun p => decide (p ≤ total))).map (fun p => [p])

/-- The pages the error-recovery pipeline dispatches for one document
(`process_error_pages` lines 166-186): the missing pages that survive
`extract_specific_pages_from_pdf` against the actual PDF page count. -/
def errorDispatched (recorded : List Nat) (total actual : Nat) : List Nat :=
  (get_missing_pages recorded total).filter (fun p => decide (p ≤ actual))

/-- Pages actually persisted by one error-recovery pass over the dispatched
pages (`process_page_batch` + `save_to_firestore`): a dispatched page is
recorded iff its transcription outcome is truthy. -/
def errorSavedPages (resp : Nat → ApiResult) (dispatched : List Nat) : List Nat :=
  dispatched.filterMap (fun p =>
    let t := transcribe_error (resp p)
    if t = "" then none else some p)

/-- `split_pdf_in_memory` of `transcribe_documents_onepage_6.py` (lines
22-41): one singleton group per page, 1-indexed, ascending
(`for i in range(total_pages)` adds page `i`, metadata page `i+1`). -/
def onePageGroups (total : Nat) : List (List Nat) :=
  (List.range total).map (fun i => [i + 1])

/-- The `for i in range(1, total_pages, 2)` loop of `split_pdf_in_memory`
(`transcribe_documents_twopage.py` lines 27-41, `transcribe_document.py`
lines 33-50): starting from 0-based index `i`, each iteration takes page
`i+1` and, when it exists, page `i+2` (1-based), then advances by 2. -/
def twoLoop (total i : Nat) : List (List Nat) :=
  if _h : i < total then
    (if i + 1 < total then [i + 1, i + 2] else [i + 1]) :: twoLoop total (i + 2)
  else []
termination_by total - i

/-- `split_pdf_in_memory` of `transcribe_documents_twopage.py` (lines 10-42):
page 1 as the "cover" singleton group, then two pages per group starting at
0-based index 1.  On a 0-page PDF `reader.pages[0]` raises `IndexError`,
modelled by `none`. -/
def coverTwoGroups (total : Nat) : Option (List (List Nat)) :=
  if total = 0 then none else some ([1] :: twoLoop total 1)

/-- One problem group of `process_workbook` (`transcribe_workbook.py` lines
389-402): `for page_num in range(start_page - 1, end_page)` keeps the 0-based
indices below the PDF's page count and adds those pages (1-based `j + 1`). -/
def workbookGroup (total s e : Nat) : List Nat :=
  ((List.range' (s - 1) (e - (s - 1))).filter (fun j => decide (j < total))).map
    (fun j => j + 1)

/-- The per-problem split of `process_workbook`: one group per caller-supplied
`(start_page, end_page)` pair, in input order. -/
def workbookGroups (total : Nat) (problems : List (Nat × Nat)) : List (List Nat) :=
  problems.map (fun pr => workbookGroup total pr.1 pr.2)

/-- Page ranges of the produced groups are pairwise disjoint. -/
def groupsDisjoint (gs : List (List Nat)) : Prop :=
  gs.Pairwise (fun a b => ∀ x ∈ a, x ∉ b)

/-- Document status values stored in `document_metadata.status`. -/
inductive Status where
  | unprocessed
  | processed
  | deleted
  | deleted_applied
deriving DecidableEq

/-- One `document_metadata` record: id, file name, storage path, status,
optional total page count, and the `random` shard selector. -/
structure DocMeta where
  id : Nat
  fileName : String
  path : String
  status : Status
  totalPages : Option Nat
  random : Nat
deriving DecidableEq

/-- The database state both pipelines operate on: the `document_metadata`
collection and the `document_transcriptions` collection. -/
structure DBState where
  docs : List DocMeta
  trans : List TransRow
deriving DecidableEq

/-- External world of one run: `fetch` is the object-store download per
document id (`none` = the download raises; `some n` = a PDF with `n` pages),
and `resp` is the generative model's outcome per document id and page. -/
structure Env where
  fetch : Nat → Option Nat
  resp : Nat → Nat → ApiResult

/-- Status of the document with the given id, `none` if absent. -/
def docStatus (s : DBState) (i : Nat) : Option Status :=
  (s.docs.find? (fun d => decide (d.id = i))).map (fun d => d.status)

/-- The deleted-document part of the sweep in `process_documents`
(`transcribe_documents_onepage_6.py` lines 115-128): for every document
whose status is `deleted`, delete all of its transcription rows and set its
status to `deleted_applied`. -/
def sweepDeleted (s : DBState) : DBState :=
  let delIds := (s.docs.filter (fun d => decide (d.status = Status.deleted))).map
    (fun d => d.id)
  { docs := s.docs.map (fun d =>
      if d.id ∈ delIds then { d with status := Status.deleted_applied } else d),
    trans := s.trans.filter (fun r =>
      decide (∀ i ∈ delIds, r.documentId ≠ some i)) }

/-- The unprocessed-document part of the sweep
(`transcribe_documents_onepage_6.py` lines 130-138): delete the
transcription rows of every document whose status is `unprocessed`. -/
def sweepUnprocessed (s : DBState) : DBState :=
  let uIds := (s.docs.filter (fun d => decide (d.status = Status.unprocessed))).map
    (fun d => d.id)
  { docs := s.docs,
    trans := s.trans.filter (fun r =>
      decide (∀ i ∈ uIds, r.documentId ≠ some i)) }

/-- The rows persisted for one document by the first-pass one-page pipeline
(`split_pdf_in_memory` + `process_page_batch` + `save_to_firestore`): one row
per page `1..actual` whose transcription outcome is truthy. -/
def onepageDocRecords (env : Env) (d : DocMeta) (actual : Nat) : List TransRow :=
  (List.range' 1 actual).filterMap (fun p =>
    let t := transcribe_onepage (env.resp d.id p)
    if t = "" then none else some (save_to_firestore t p d.fileName d.id))

/-- `document_metadata.document(doc_id).update({'status': 'processed'})`:
every document with the given id gets status `processed`. -/
def setStatusProcessed (docs : List DocMeta) (i : Nat) : List DocMeta :=
  docs.map (fun d => if d.id = i then { d with status := Status.processed } else d)

/-- The per-document body of `process_documents`
(`transcribe_documents_onepage_6.py` lines 147-167): a failing download is
caught and the document is skipped with no state change; otherwise every
page is transcribed and the truthy results saved, after which the document's
status is set to `processed`. -/
def onepageProcessDoc (env : Env) (s : DBState) (d : DocMeta) : DBState :=
  match env.fetch d.id with
  | none => s
  | some actual =>
    { docs := setStatusProcessed s.docs d.id,
      trans := s.trans ++ onepageDocRecords env d actual }

/-- `process_documents` of `transcribe_documents_onepage_6.py` (lines
113-170): deletion sweep, then selection of `unprocessed` documents with
`random = 6`, then per-document processing in order. -/
def onepageRun (env : Env) (s : DBState) : DBState :=
  let s1 := sweepUnprocessed (sweepDeleted s)
  (s1.docs.filter (fun d =>
    decide (d.status = Status.unprocessed ∧ d.random = 6))).foldl
    (onepageProcessDoc env) s1

/-- Recorded page numbers of a document: page values of its transcription
rows (the Firestore query in `get_missing_pages`, lines 116-121). -/
def recordedPagesFor (s : DBState) (docId : Nat) : List Nat :=
  (s.trans.filter (fun r => decide (r.documentId = some docId))).filterMap
    (fun r => r.page)

/-- The rows persisted for one document by one error-recovery pass
(`extract_specific_pages_from_pdf` + `process_page_batch` +
`save_to_firestore`): one row per dispatched page whose transcription
outcome is truthy. -/
def errorDocRecords (env : Env) (d : DocMeta) (total actual : Nat)
    (recorded : List Nat) : List TransRow :=
  (errorDispatched recorded total actual).filterMap (fun p =>
    let t := transcribe_error (env.resp d.id p)
    if t = "" then none else some (save_to_firestore t p d.fileName d.id))

/-- The per-document body of `process_error_pages`
(`transcribe_error_page6.py` lines 152-194): skip when `total_pages` is
unset, skip when the missing set is empty, skip (exception caught) when the
download fails; otherwise append the rows for the dispatched pages.  The
document's status is never written. -/
def errorProcessDoc (env : Env) (s : DBState) (d : DocMeta) : DBState :=
  match d.totalPages with
  | none => s
  | some total =>
    let recorded := recordedPagesFor s d.id
    if get_missing_pages recorded total = [] then s
    else
      match env.fetch d.id with
      | none => s
      | some actual =>
        { docs := s.docs,
          trans := s.trans ++ errorDocRecords env d total actual recorded }

/-- `process_error_pages` of `transcribe_error_page6.py` (lines 140-197):
selection of `processed` documents with `random = 6` (no deletion sweep),
then per-document processing in order. -/
def errorRun (env : Env) (s : DBState) : DBState :=
  (s.docs.filter (fun d =>
    decide (d.status = Status.processed ∧ d.random = 6))).foldl
    (errorProcessDoc env) s

/-- A document's status may only stay, advance `unprocessed → processed`, or
advance `deleted → deleted_applied` within one run of the modelled
pipelines. -/
def allowedStep (a b : Status) : Prop :=
  a = b ∨ (a = Status.unprocessed ∧ b = Status.processed) ∨
    (a = Status.deleted ∧ b = Status.deleted_applied)

/-- Concrete state for the missing-sweep counterexample: one `deleted`
document that still owns one transcription row. -/
def sweepCexState : DBState :=
  { docs := [{ id := 1, fileName := "f", path := "p", status := Status.deleted,
               totalPages := none, random := 6 }],
    trans := [{ documentId := some 1, page := some 1, startPage := none,
                endPage := none, transcription := "t", fileName := "f" }] }

/-- Concrete environment for the counterexamples: every download fails and
every remote call raises. -/
def failEnv : Env :=
  { fetch := fun _ => none, resp := fun _ _ => ApiResult.failure }

/-- `get_missing_pages` including its outer `try/except` (lines 113-138):
when listing the recorded pages raises, the handler returns `[]`. -/
def get_missing_pages_result (listing : Except Unit (List Nat)) (total : Nat) :
    List Nat :=
  match listing with
  | Except.error _ => []
  | Except.ok recorded => get_missing_pages recorded total

/-- What `process_error_pages` decides for one document after computing the
missing pages (lines 166-170). -/
inductive DocAction where
  | skipComplete
  | processMissing : List Nat → DocAction
deriving DecidableEq

/-- The caller's decision on the missing-page result (`if not missing_pages:
... continue`): an empty list means the document is treated as fully
processed and skipped. -/
def errorDocDecision (listing : Except Unit (List Nat)) (total : Nat) : DocAction :=
  let missing := get_missing_pages_result listing total
  if missing = [] then DocAction.skipComplete else DocAction.processMissing missing

/-- Outcome of the `__main__` block of `transcribe_workbook.py`. -/
inductive CliOutcome where
  | usageExit : Nat → CliOutcome
  | runWorkbook : String → String → CliOutcome
deriving DecidableEq

/-- The `__main__` block of `transcribe_workbook.py` (lines 451-458): with
`len(sys.argv) != 3` (`argv` includes the script name, so other than exactly
two positional arguments) it prints the usage message and exits with status
1; otherwise it calls `process_workbook(problems_file, target_file_name)`. -/
def workbookMain (argv : List String) : CliOutcome :=
  if argv.length ≠ 3 then CliOutcome.usageExit 1
  else CliOutcome.runWorkbook (argv.getD 1 "") (argv.getD 2 "")

/-- A `deleted` document used by the sweep witness. -/
def sweepWitDeletedDoc : DocMeta :=
  { id := 1, fileName := "f", path := "p", status := Status.deleted,
    totalPages := none, random := 6 }

/-- An `unprocessed` document used by the sweep witness. -/
def sweepWitUnprocessedDoc : DocMeta :=
  { id := 2, fileName := "g", path := "q", status := Status.unprocessed,
    totalPages := none, random := 3 }

/-- Concrete state for the sweep witness: the two documents above, each
owning one transcription row. -/
def sweepWitState : DBState :=
  { docs := [sweepWitDeletedDoc, sweepWitUnprocessedDoc],
    trans := [{ documentId := some 1, page := some 1, startPage := none,
                endPage := none, transcription := "t", fileName := "f" },
              { documentId := some 2, page := some 4, startPage := none,
                endPage := none, transcription := "u", fileName := "g" }] }

/-- An `unprocessed` shard-6 document used by the status witness. -/
def statusWitDoc : DocMeta :=
  { id := 1, fileName := "f", path := "p", status := Status.unprocessed,
    totalPages := none, random := 6 }

/-- Concrete state for the status witness. -/
def statusWitState : DBState := { docs := [statusWitDoc], trans := [] }

/-- Environment for the status witness: the download yields a 1-page PDF and
the remote call returns text. -/
def statusWitEnv : Env :=
  { fetch := fun _ => some 1, resp := fun _ _ => ApiResult.response 1 "ok" }

/-- Remote responses of the idempotence counterexample: every page yields
text. -/
def idemCexResp : Nat → ApiResult := fun _ => ApiResult.response 1 "x"

/-- Remote responses of the idempotence witness. -/
def idemWitResp : Nat → ApiResult := fun _ => ApiResult.response 1 "ok"

lemma mem_existingPages {recorded : List Nat} {p : Nat} (hp : p ≠ 0) :
    p ∈ existingPages recorded ↔ p ∈ recorded := by
  simp [existingPages, List.mem_filter, hp]

lemma mem_get_missing_pages {recorded : List Nat} {total p : Nat} :
    p ∈ get_missing_pages recorded total ↔
      (1 ≤ p ∧ p ≤ total ∧ p ∉ recorded) := by
  constructor
  · intro h
    rcases List.mem_filter.mp h with ⟨hr, hd⟩
    rcases List.mem_range'_1.mp hr with ⟨h1, h2⟩
    have hne : p ≠ 0 := by omega
    have := of_decide_eq_true hd
    rw [mem_existingPages hne] at this
    exact ⟨h1, by omega, this⟩
  · rintro ⟨h1, h2, h3⟩
    refine List.mem_filter.mpr ⟨List.mem_range'_1.mpr ⟨h1, by omega⟩, ?_⟩
    have hne : p ≠ 0 := by omega
    exact decide_eq_true (by rw [mem_existingPages hne]; exact h3)

lemma get_missing_pages_sorted (recorded : List Nat) (total : Nat) :
    (get_missing_pages recorded total).Sorted (· < ·) :=
  List.Pairwise.sublist (List.filter_sublist _) (List.pairwise_lt_range' 1 total)

/-- C1: for every total page count and every set of already-recorded pages,
`get_missing_pages` returns exactly the set difference
`{1..total} − recorded`, sorted in ascending order; for `total = 5` and
recorded pages `{1,3,4}` it returns `[2, 5]`, and exactly those pages are
dispatched for transcription by the error-recovery pipeline. -/
theorem getMissingPages_is_sorted_complement :
    (∀ (recorded : List Nat) (total p : Nat),
       p ∈ get_missing_pages recorded total ↔
         (1 ≤ p ∧ p ≤ total ∧ p ∉ recorded)) ∧
    (∀ (recorded : List Nat) (total : Nat),
       (get_missing_pages recorded total).Sorted (· < ·)) ∧
    get_missing_pages [1, 3, 4] 5 = [2, 5] ∧
    errorDispatched [1, 3, 4] 5 5 = [2, 5] := by
  refine ⟨fun recorded total p => mem_get_missing_pages,
    fun recorded total => get_missing_pages_sorted recorded total, ?_, ?_⟩ <;> decide

lemma groupsDisjoint_of_flatten_nodup {gs : List (List Nat)}
    (h : gs.flatten.Nodup) : groupsDisjoint gs :=
  ((List.nodup_flatten.mp h).2).imp (fun hd => fun _x hx => hd hx)

lemma flatten_map_singleton {α β : Type} (f : α → β) (l : List α) :
    (l.map (fun a => [f a])).flatten = l.map f := by
  induction l with
  | nil => rfl
  | cons a l ih => simp [ih]

lemma onePageGroups_flatten (total : Nat) :
    (onePageGroups total).flatten = List.range' 1 total := by
  rw [onePageGroups, flatten_map_singleton, List.range'_eq_map_range]
  exact List.map_congr_left (fun i _ => Nat.add_comm i 1)

lemma twoLoop_flatten :
    ∀ (fuel total i : Nat), total ≤ i + fuel →
      (twoLoop total i).flatten = List.range' (i + 1) (total - i) := by
  intro fuel
  induction fuel with
  | zero =>
    intro total i h
    rw [twoLoop, dif_neg (by omega)]
    have : total - i = 0 := by omega
    simp [this]
  | succ n ih =>
    intro total i h
    rw [twoLoop]
    by_cases hi : i < total
    · rw [dif_pos hi]
      by_cases h2 : i + 1 < total
      · rw [if_pos h2]
        have hrec := ih total (i + 2) (by omega)
        have h3 : total - i = (total - (i + 2)) + 1 + 1 := by omega
        rw [h3, List.range'_succ, List.range'_succ]
        simp only [List.flatten_cons, hrec]
        simp
      · rw [if_neg h2]
        have hrec := ih total (i + 2) (by omega)
        have h4 : total - (i + 2) = 0 := by omega
        have h3 : total - i = 1 := by omega
        simp only [List.flatten_cons, hrec, h4, h3]
        simp [List.range'_succ]
    · rw [dif_neg hi]
      have : total - i = 0 := by omega
      simp [this]

lemma coverTwoGroups_flatten {total : Nat} (h : 1 ≤ total) :
    ∃ gs, coverTwoGroups total = some gs ∧
      gs.flatten = List.range' 1 total := by
  refine ⟨[1] :: twoLoop total 1, ?_, ?_⟩
  · rw [coverTwoGroups, if_neg (by omega)]
  · rw [List.flatten_cons, twoLoop_flatten total total 1 (by omega)]
    have h3 : total = (total - 1) + 1 := by omega
    rw [h3, List.range'_succ]
    simp

lemma extractGroups_flatten (total : Nat) (pages : List Nat) :
    (extractGroups total pages).flatten =
      pages.filter (fun p => decide (p ≤ total)) := by
  rw [extractGroups, flatten_map_singleton, List.map_id']

lemma mem_workbookGroup {total s e x : Nat} (hs : 1 ≤ s) :
    x ∈ workbookGroup total s e ↔ (s ≤ x ∧ x ≤ e ∧ x ≤ total) := by
  simp only [workbookGroup, List.mem_map, List.mem_filter, List.mem_range'_1,
    decide_eq_true_eq]
  constructor
  · rintro ⟨j, ⟨⟨hj1, hj2⟩, hj3⟩, rfl⟩
    omega
  · rintro ⟨h1, h2, h3⟩
    exact ⟨x - 1, ⟨⟨by omega, by omega⟩, by omega⟩, by omega⟩

/-- C2 (amended): for the one-page policy, the cover+two-page policy (on a
non-empty document), and an explicit duplicate-free page list, the produced
page groups are pairwise disjoint, cover exactly the requested page set
clipped to the document's page count, in ascending/request order; for
caller-supplied `(start, end)` ranges each group is the requested range
clipped to the page count, and the groups are pairwise disjoint whenever the
supplied ranges are pairwise disjoint.  Requested pages beyond the document's
page count are silently skipped in every policy. -/
theorem splitPolicies_partition (total : Nat) (pages : List Nat)
    (problems : List (Nat × Nat))
    (htot : 1 ≤ total) (hnd : pages.Nodup)
    (hone : ∀ pr ∈ problems, 1 ≤ pr.1)
    (hdisj : problems.Pairwise (fun a b => a.2 < b.1 ∨ b.2 < a.1)) :
    ((onePageGroups total).flatten = List.range' 1 total ∧
      groupsDisjoint (onePageGroups total)) ∧
    (∃ gs, coverTwoGroups total = some gs ∧
      gs.flatten = List.range' 1 total ∧ groupsDisjoint gs) ∧
    ((extractGroups total pages).flatten =
        pages.filter (fun p => decide (p ≤ total)) ∧
      groupsDisjoint (extractGroups total pages)) ∧
    ((∀ pr ∈ problems, ∀ x, x ∈ workbookGroup total pr.1 pr.2 ↔
        (pr.1 ≤ x ∧ x ≤ pr.2 ∧ x ≤ total)) ∧
      groupsDisjoint (workbookGroups total problems)) := by
  refine ⟨⟨onePageGroups_flatten total, ?_⟩, ?_, ⟨extractGroups_flatten total pages, ?_⟩,
    ?_, ?_⟩
  · exact groupsDisjoint_of_flatten_nodup
      (by rw [onePageGroups_flatten]; exact List.nodup_range' 1 total)
  · rcases coverTwoGroups_flatten htot with ⟨gs, hgs, hfl⟩
    exact ⟨gs, hgs, hfl, groupsDisjoint_of_flatten_nodup
      (by rw [hfl]; exact List.nodup_range' 1 total)⟩
  · exact groupsDisjoint_of_flatten_nodup
      (by rw [extractGroups_flatten]; exact hnd.filter _)
  · intro pr hpr x
    exact mem_workbookGroup (hone pr hpr)
  · rw [groupsDisjoint, workbookGroups, List.pairwise_map]
    refine hdisj.imp_of_mem ?_
    intro a b ha hb hab x hxa hxb
    rw [mem_workbookGroup (hone a ha)] at hxa
    rw [mem_workbookGroup (hone b hb)] at hxb
    omega

/-- C2 (counterexample): with caller-supplied page ranges — the workbook
policy — the produced groups need not be pairwise disjoint: on a 3-page
document, ranges `(1,2)` and `(2,3)` both produce page 2. -/
theorem splitPolicies_partition_counterexample :
    workbookGroups 3 [(1, 2), (2, 3)] = [[1, 2], [2, 3]] ∧
    ¬ groupsDisjoint (workbookGroups 3 [(1, 2), (2, 3)]) := by
  constructor
  · rfl
  · intro h
    rw [groupsDisjoint] at h
    have h2 := (List.pairwise_cons.mp h).1 [2, 3] (by decide)
    exact h2 2 (by decide) (by decide)

/-- C2 (witness): the amended partition statement at `total = 3`,
`pages = [1, 3, 6]`, `problems = [(1, 1), (2, 3)]`. -/
theorem splitPolicies_partition_witness :
    (1 ≤ 3 ∧ ([1, 3, 6] : List Nat).Nodup ∧
      (∀ pr ∈ [((1 : Nat), (1 : Nat)), (2, 3)], 1 ≤ pr.1) ∧
      ([((1 : Nat), (1 : Nat)), (2, 3)]).Pairwise
        (fun a b => a.2 < b.1 ∨ b.2 < a.1)) ∧
    (((onePageGroups 3).flatten = List.range' 1 3 ∧
        groupsDisjoint (onePageGroups 3)) ∧
      (∃ gs, coverTwoGroups 3 = some gs ∧
        gs.flatten = List.range' 1 3 ∧ groupsDisjoint gs) ∧
      ((extractGroups 3 [1, 3, 6]).flatten =
          ([1, 3, 6] : List Nat).filter (fun p => decide (p ≤ 3)) ∧
        groupsDisjoint (extractGroups 3 [1, 3, 6])) ∧
      ((∀ pr ∈ [((1 : Nat), (1 : Nat)), (2, 3)], ∀ x,
          x ∈ workbookGroup 3 pr.1 pr.2 ↔ (pr.1 ≤ x ∧ x ≤ pr.2 ∧ x ≤ 3)) ∧
        groupsDisjoint (workbookGroups 3 [(1, 1), (2, 3)]))) :=
  ⟨⟨by decide, by decide, by decide, by decide⟩,
    splitPolicies_partition 3 [1, 3, 6] [(1, 1), (2, 3)]
      (by decide) (by decide) (by decide) (by decide)⟩

/-- C3 (counterexample): the twopage first-pass pipeline does not leave an
empty-text page absent from the store — `process_documents` of
`transcribe_documents_twopage.py` calls `save_to_supabase` unconditionally,
so a candidate with empty text is persisted as an empty-string record. -/
theorem emptyText_firstPass_counterexample :
    twopageDocSaves [(1, ApiResult.response 1 "")] = [(1, "")] ∧
    twopageDocSaves [(1, ApiResult.response 1 "")] ≠ [] := by
  exact ⟨rfl, by decide⟩

/-- C3 (amended): on a candidate with empty text, the error-recovery pipeline
persists the sentinel `"内容なし"` for the page — and a recorded page is never
in a later missing-page set, so it is not re-attempted; the one-page
first-pass pipeline persists nothing for the page; the twopage first-pass
pipeline persists an empty-string record for it. -/
theorem emptyText_sentinel_asymmetry (p c : Nat) :
    errorBatchSaves [(p, ApiResult.response (c + 1) "")] = [(p, "内容なし")] ∧
    onepageBatchSaves [(p, ApiResult.response (c + 1) "")] = [] ∧
    twopageDocSaves [(p, ApiResult.response (c + 1) "")] = [(p, "")] ∧
    (∀ total, p ∉ get_missing_pages [p] total) := by
  refine ⟨rfl, rfl, rfl, ?_⟩
  intro total hp
  rcases mem_get_missing_pages.mp hp with ⟨h1, _, h3⟩
  exact h3 (List.mem_singleton.mpr rfl)

/-- C3 (witness): the amended statement at page 7 with one candidate. -/
theorem emptyText_sentinel_asymmetry_witness :
    errorBatchSaves [(7, ApiResult.response 1 "")] = [(7, "内容なし")] ∧
    onepageBatchSaves [(7, ApiResult.response 1 "")] = [] ∧
    twopageDocSaves [(7, ApiResult.response 1 "")] = [(7, "")] ∧
    (∀ total, 7 ∉ get_missing_pages [7] total) :=
  emptyText_sentinel_asymmetry 7 0

/-- C4 (counterexample): in the error-recovery pipeline an exception during
the remote call is converted to `"内容なし"`, which `process_page_batch`
persists — not the empty outcome that would leave the page eligible for
retry. -/
theorem exception_outcome_counterexample :
    transcribe_error ApiResult.failure = "内容なし" ∧
    errorBatchSaves [(1, ApiResult.failure)] = [(1, "内容なし")] ∧
    errorBatchSaves [(1, ApiResult.failure)] ≠ [] := by
  exact ⟨rfl, rfl, by decide⟩

/-- C4 (amended): an exception raised during the remote call is caught inside
`transcribe_pdf` and converted to a sentinel string, never propagated (the
embedded functions are total on the exception outcome): the first-pass
variants convert it to `""`, which is not persisted and leaves the page
eligible for retry, while the error-recovery variant converts it to
`"内容なし"`, which is persisted and therefore not re-attempted. -/
theorem exception_caught_and_converted (p : Nat) :
    transcribe_onepage ApiResult.failure = "" ∧
    transcribe_twopage ApiResult.failure = "" ∧
    transcribe_error ApiResult.failure = "内容なし" ∧
    onepageBatchSaves [(p, ApiResult.failure)] = [] ∧
    errorBatchSaves [(p, ApiResult.failure)] = [(p, "内容なし")] :=
  ⟨rfl, rfl, rfl, rfl, rfl⟩

/-- C4 (witness): the amended statement at page 4. -/
theorem exception_caught_and_converted_witness :
    transcribe_onepage ApiResult.failure = "" ∧
    transcribe_twopage ApiResult.failure = "" ∧
    transcribe_error ApiResult.failure = "内容なし" ∧
    onepageBatchSaves [(4, ApiResult.failure)] = [] ∧
    errorBatchSaves [(4, ApiResult.failure)] = [(4, "内容なし")] :=
  exception_caught_and_converted 4

lemma find?_map_id_pres (docs : List DocMeta) (g : DocMeta → DocMeta)
    (hg : ∀ d, (g d).id = d.id) (i : Nat) :
    (docs.map g).find? (fun d => decide (d.id = i)) =
      (docs.find? (fun d => decide (d.id = i))).map g := by
  induction docs with
  | nil => rfl
  | cons d ds ih =>
    by_cases h : d.id = i
    · simp [List.find?_cons, hg d, h]
    · simp [List.find?_cons, hg d, h, ih]

lemma find?_self {docs : List DocMeta}
    (hids : (docs.map (fun d => d.id)).Nodup) {d : DocMeta} (hd : d ∈ docs) :
    docs.find? (fun x => decide (x.id = d.id)) = some d := by
  induction docs with
  | nil => cases hd
  | cons a as ih =>
    rcases List.mem_cons.mp hd with rfl | hmem
    · simp [List.find?_cons]
    · by_cases h : a.id = d.id
      · exfalso
        have hnotin : a.id ∉ as.map (fun d => d.id) :=
          (List.nodup_cons.mp (by simpa using hids)).1
        exact hnotin (h ▸ List.mem_map.mpr ⟨d, hmem, rfl⟩)
      · rw [List.find?_cons_of_neg _ (by simpa using h)]
        exact ih (List.Nodup.of_cons (by simpa using hids)) hmem

lemma mem_deletedIds {s : DBState}
    (hids : (s.docs.map (fun d => d.id)).Nodup) {d : DocMeta} (hd : d ∈ s.docs) :
    d.id ∈ ((s.docs.filter (fun x => decide (x.status = Status.deleted))).map
        (fun x => x.id)) ↔ d.status = Status.deleted := by
  constructor
  · intro h
    rcases List.mem_map.mp h with ⟨d', hd', hid⟩
    rcases List.mem_filter.mp hd' with ⟨hd'mem, hst⟩
    have hdd : d' = d := List.inj_on_of_nodup_map hids hd'mem hd hid
    rw [← hdd]
    exact of_decide_eq_true hst
  · intro h
    exact List.mem_map.mpr ⟨d, List.mem_filter.mpr ⟨hd, decide_eq_true h⟩, rfl⟩

lemma sweepUnprocessed_docs (s : DBState) : (sweepUnprocessed s).docs = s.docs := rfl

lemma docStatus_sweepDeleted {s : DBState}
    (hids : (s.docs.map (fun d => d.id)).Nodup) {d : DocMeta} (hd : d ∈ s.docs) :
    docStatus (sweepDeleted s) d.id =
      some (if d.status = Status.deleted then Status.deleted_applied
            else d.status) := by
  rw [docStatus, sweepDeleted]
  rw [find?_map_id_pres _ _ (fun x => by split <;> rfl) d.id]
  rw [find?_self hids hd]
  by_cases h : d.status = Status.deleted
  · simp [h, (mem_deletedIds hids hd).mpr h]
  · have : d.id ∉ ((s.docs.filter (fun x =>
        decide (x.status = Status.deleted))).map (fun x => x.id)) := by
      intro hc
      exact h ((mem_deletedIds hids hd).mp hc)
    simp [h, this]

lemma docStatus_sweepUnprocessed (s : DBState) (i : Nat) :
    docStatus (sweepUnprocessed s) i = docStatus s i := rfl

lemma trans_sweeps_of_deleted {s : DBState} {d : DocMeta} (hd : d ∈ s.docs)
    (hst : d.status = Status.deleted) :
    (sweepUnprocessed (sweepDeleted s)).trans.filter
      (fun r => decide (r.documentId = some d.id)) = [] := by
  rw [List.filter_eq_nil_iff]
  intro r hr
  have hr1 : r ∈ (sweepDeleted s).trans := List.mem_of_mem_filter hr
  have hr2 := of_decide_eq_true (List.mem_filter.mp hr1).2
  have hdel : d.id ∈ ((s.docs.filter (fun x =>
      decide (x.status = Status.deleted))).map (fun x => x.id)) :=
    List.mem_map.mpr ⟨d, List.mem_filter.mpr ⟨hd, decide_eq_true hst⟩, rfl⟩
  simpa using hr2 d.id hdel

lemma trans_sweeps_of_unprocessed {s : DBState}
    (hids : (s.docs.map (fun d => d.id)).Nodup) {d : DocMeta} (hd : d ∈ s.docs)
    (hst : d.status = Status.unprocessed) :
    (sweepUnprocessed (sweepDeleted s)).trans.filter
      (fun r => decide (r.documentId = some d.id)) = [] := by
  rw [List.filter_eq_nil_iff]
  intro r hr
  have hr2 := of_decide_eq_true (List.mem_filter.mp hr).2
  have hnotdel : d.id ∉ ((s.docs.filter (fun x =>
      decide (x.status = Status.deleted))).map (fun x => x.id)) := by
    intro hc
    have := (mem_deletedIds hids hd).mp hc
    rw [hst] at this
    cases this
  have hd' : (if d.id ∈ ((s.docs.filter (fun x =>
      decide (x.status = Status.deleted))).map (fun x => x.id))
      then { d with status := Status.deleted_applied } else d) = d := by
    rw [if_neg hnotdel]
  have hmem : d ∈ (sweepDeleted s).docs := by
    rw [sweepDeleted]
    exact hd' ▸ List.mem_map.mpr ⟨d, hd, rfl⟩
  have huid : d.id ∈ (((sweepDeleted s).docs.filter (fun x =>
      decide (x.status = Status.unprocessed))).map (fun x => x.id)) :=
    List.mem_map.mpr ⟨d, List.mem_filter.mpr ⟨hmem, decide_eq_true hst⟩, rfl⟩
  simpa using hr2 d.id huid

/-- C5 (amended): in the first-pass pipeline the deletion sweep runs before
selection and is complete — after it, a document that was `deleted` has zero
transcription rows and status `deleted_applied`, and a document that is
`unprocessed` has zero (stray) transcription rows.  The error-recovery
pipeline performs no such sweep (see the counterexample). -/
theorem deletionSweep_firstPass (s : DBState)
    (hids : (s.docs.map (fun d => d.id)).Nodup) :
    ∀ d ∈ s.docs,
      (d.status = Status.deleted →
        (sweepUnprocessed (sweepDeleted s)).trans.filter
          (fun r => decide (r.documentId = some d.id)) = [] ∧
        docStatus (sweepUnprocessed (sweepDeleted s)) d.id =
          some Status.deleted_applied) ∧
      (d.status = Status.unprocessed →
        (sweepUnprocessed (sweepDeleted s)).trans.filter
          (fun r => decide (r.documentId = some d.id)) = []) := by
  intro d hd
  refine ⟨fun hst => ⟨trans_sweeps_of_deleted hd hst, ?_⟩,
    fun hst => trans_sweeps_of_unprocessed hids hd hst⟩
  rw [docStatus_sweepUnprocessed, docStatus_sweepDeleted hids hd, if_pos hst]

/-- C5 (counterexample): an error-recovery invocation (`process_error_pages`)
runs no deletion sweep: on a state with one `deleted` document that still
owns a transcription row, the run leaves the state unchanged — the row
remains and the status is still `deleted`, not `deleted_applied`. -/
theorem deletionSweep_counterexample :
    errorRun failEnv sweepCexState = sweepCexState ∧
    (errorRun failEnv sweepCexState).trans.filter
      (fun r => decide (r.documentId = some 1)) ≠ [] ∧
    docStatus (errorRun failEnv sweepCexState) 1 = some Status.deleted := by
  decide

/-- C5 (witness): the amended sweep statement on a concrete state with one
`deleted` document owning a row and one `unprocessed` document with a stray
row. -/
theorem deletionSweep_firstPass_witness :
    ((sweepWitState.docs.map (fun d => d.id)).Nodup) ∧
    ((sweepUnprocessed (sweepDeleted sweepWitState)).trans.filter
        (fun r => decide (r.documentId = some 1)) = [] ∧
      docStatus (sweepUnprocessed (sweepDeleted sweepWitState)) 1 =
        some Status.deleted_applied) ∧
    (sweepUnprocessed (sweepDeleted sweepWitState)).trans.filter
      (fun r => decide (r.documentId = some 2)) = [] :=
  ⟨by decide,
    (deletionSweep_firstPass sweepWitState (by decide) sweepWitDeletedDoc
      (by decide)).1 rfl,
    (deletionSweep_firstPass sweepWitState (by decide) sweepWitUnprocessedDoc
      (by decide)).2 rfl⟩

lemma docStatus_onepageProcessDoc (env : Env) (s : DBState) (d2 : DocMeta)
    (i : Nat) :
    docStatus (onepageProcessDoc env s d2) i =
      if (decide (d2.id = i) && (env.fetch d2.id).isSome) = true
      then (docStatus s i).map (fun _ => Status.processed)
      else docStatus s i := by
  rw [onepageProcessDoc]
  cases hf : env.fetch d2.id with
  | none =>
    simp [hf]
  | some actual =>
    simp only [hf, Option.isSome_some, Bool.and_true]
    rw [docStatus, docStatus, setStatusProcessed]
    rw [find?_map_id_pres _ _ (fun x => by split <;> rfl) i]
    cases hfind : s.docs.find? (fun d => decide (d.id = i)) with
    | none => simp
    | some d' =>
      have hp' := @List.find?_some DocMeta (fun d => decide (d.id = i)) d'
        s.docs hfind
      have hp : d'.id = i := of_decide_eq_true hp'
      by_cases h : d2.id = i
      · have h2 : d'.id = d2.id := by omega
        simp [h, h2]
      · have h2 : d'.id ≠ d2.id := by omega
        simp [h, h2]

lemma docStatus_onepageFold (env : Env) (ds : List DocMeta) (s : DBState)
    (i : Nat) :
    docStatus (ds.foldl (onepageProcessDoc env) s) i =
      if (ds.any (fun d => decide (d.id = i) && (env.fetch d.id).isSome)) = true
      then (docStatus s i).map (fun _ => Status.processed)
      else docStatus s i := by
  induction ds generalizing s with
  | nil => simp
  | cons d2 ds ih =>
    rw [List.foldl_cons, ih, docStatus_onepageProcessDoc, List.any_cons]
    by_cases h : (decide (d2.id = i) && (env.fetch d2.id).isSome) = true
    · simp only [h, Bool.true_or, if_true, if_pos]
      split <;> cases docStatus s i <;> simp
    · simp only [h, Bool.false_or, if_neg]
      simp [h]

lemma errorProcessDoc_docs (env : Env) (s : DBState) (d : DocMeta) :
    (errorProcessDoc env s d).docs = s.docs := by
  rw [errorProcessDoc]
  cases d.totalPages with
  | none => rfl
  | some total =>
    simp only
    split
    · rfl
    · cases env.fetch d.id <;> rfl

lemma errorRun_docs (env : Env) (s : DBState) : (errorRun env s).docs = s.docs := by
  rw [errorRun]
  generalize (s.docs.filter (fun d =>
    decide (d.status = Status.processed ∧ d.random = 6))) = ds
  induction ds generalizing s with
  | nil => rfl
  | cons d2 ds ih =>
    rw [List.foldl_cons]
    rw [ih (errorProcessDoc env s d2)]
    exact errorProcessDoc_docs env s d2

lemma any_selected_iff {s : DBState} (env : Env)
    (hids : (s.docs.map (fun d => d.id)).Nodup) {d : DocMeta} (hd : d ∈ s.docs) :
    (((sweepUnprocessed (sweepDeleted s)).docs.filter (fun x =>
        decide (x.status = Status.unprocessed ∧ x.random = 6))).any
      (fun x => decide (x.id = d.id) && (env.fetch x.id).isSome)) = true ↔
    (d.status = Status.unprocessed ∧ d.random = 6 ∧
      (env.fetch d.id).isSome = true) := by
  rw [List.any_eq_true]
  constructor
  · rintro ⟨x, hx, hcond⟩
    rcases List.mem_filter.mp hx with ⟨hxmem, hxsel⟩
    rcases of_decide_eq_true hxsel with ⟨hxst, hxrnd⟩
    rcases Bool.and_eq_true_iff.mp hcond with ⟨hxid, hxfet⟩
    have hxid' : x.id = d.id := of_decide_eq_true hxid
    rw [sweepUnprocessed_docs, sweepDeleted] at hxmem
    rcases List.mem_map.mp hxmem with ⟨d', hd'mem, hd'eq⟩
    have hid' : d'.id = d.id := by
      rw [← hxid', ← hd'eq]
      split <;> rfl
    have hdd : d' = d := List.inj_on_of_nodup_map hids hd'mem hd hid'
    subst hdd
    by_cases hc : d'.id ∈ ((s.docs.filter (fun x =>
        decide (x.status = Status.deleted))).map (fun x => x.id))
    · rw [if_pos hc] at hd'eq
      rw [← hd'eq] at hxst
      cases hxst
    · rw [if_neg hc] at hd'eq
      subst hd'eq
      exact ⟨hxst, hxrnd, by rw [← hxid']; exact hxfet⟩
  · rintro ⟨hst, hrnd, hfet⟩
    have hnotdel : d.id ∉ ((s.docs.filter (fun x =>
        decide (x.status = Status.deleted))).map (fun x => x.id)) := by
      intro hc
      have := (mem_deletedIds hids hd).mp hc
      rw [hst] at this
      cases this
    refine ⟨d, ?_, ?_⟩
    · rw [sweepUnprocessed_docs, sweepDeleted]
      refine List.mem_filter.mpr ⟨?_, decide_eq_true ⟨hst, hrnd⟩⟩
      have : (if d.id ∈ ((s.docs.filter (fun x =>
          decide (x.status = Status.deleted))).map (fun x => x.id))
          then { d with status := Status.deleted_applied } else d) = d :=
        if_neg hnotdel
      exact this ▸ List.mem_map.mpr ⟨d, hd, rfl⟩
    · rw [Bool.and_eq_true]
      exact ⟨decide_eq_true rfl, hfet⟩

lemma docStatus_onepageRun {s : DBState} (env : Env)
    (hids : (s.docs.map (fun d => d.id)).Nodup) {d : DocMeta} (hd : d ∈ s.docs) :
    docStatus (onepageRun env s) d.id =
      some (if d.status = Status.deleted then Status.deleted_applied
            else if d.status = Status.unprocessed ∧ d.random = 6 ∧
                (env.fetch d.id).isSome = true then Status.processed
            else d.status) := by
  simp only [onepageRun]
  rw [docStatus_onepageFold]
  by_cases hsel : d.status = Status.unprocessed ∧ d.random = 6 ∧
      (env.fetch d.id).isSome = true
  · rw [if_pos ((any_selected_iff env hids hd).mpr hsel)]
    rw [docStatus_sweepUnprocessed, docStatus_sweepDeleted hids hd]
    have hnd : ¬ d.status = Status.deleted := by
      intro h
      rw [hsel.1] at h
      cases h
    simp [hnd, hsel]
  · rw [if_neg (fun hc => hsel ((any_selected_iff env hids hd).mp hc))]
    rw [docStatus_sweepUnprocessed, docStatus_sweepDeleted hids hd]
    simp [hsel]

/-- C6: within the modelled runs a document's status only advances along the
allowed edges (`unprocessed → processed` in the first-pass run's settle step,
`deleted → deleted_applied` in its sweep, otherwise unchanged); the
error-recovery run never writes any document's status; and a first-pass run
ends with status `processed` only for a document that was selected and whose
download — hence all of its batches — completed without a fatal error. -/
theorem statusTransitions_monotone (s : DBState) (env : Env)
    (hids : (s.docs.map (fun d => d.id)).Nodup) :
    (∀ d ∈ s.docs, ∃ st, docStatus (onepageRun env s) d.id = some st ∧
      allowedStep d.status st) ∧
    (errorRun env s).docs = s.docs ∧
    (∀ d ∈ s.docs, docStatus (onepageRun env s) d.id = some Status.processed →
      d.status = Status.processed ∨
        (d.status = Status.unprocessed ∧ d.random = 6 ∧
          env.fetch d.id ≠ none)) := by
  refine ⟨?_, errorRun_docs env s, ?_⟩
  · intro d hd
    refine ⟨_, docStatus_onepageRun env hids hd, ?_⟩
    by_cases h1 : d.status = Status.deleted
    · simp [h1, allowedStep]
    · by_cases h2 : d.status = Status.unprocessed ∧ d.random = 6 ∧
          (env.fetch d.id).isSome = true
      · simp [h1, h2, allowedStep, h2.1]
      · simp [h1, h2, allowedStep]
  · intro d hd hproc
    rw [docStatus_onepageRun env hids hd] at hproc
    have heq := Option.some.inj hproc
    by_cases h1 : d.status = Status.deleted
    · rw [if_pos h1] at heq
      cases heq
    · rw [if_neg h1] at heq
      by_cases h2 : d.status = Status.unprocessed ∧ d.random = 6 ∧
          (env.fetch d.id).isSome = true
      · exact Or.inr ⟨h2.1, h2.2.1, Option.isSome_iff_ne_none.mp h2.2.2⟩
      · rw [if_neg h2] at heq
        exact Or.inl heq

/-- C6 (witness): the status-transition statement on the concrete
one-document state. -/
theorem statusTransitions_monotone_witness :
    ((statusWitState.docs.map (fun d => d.id)).Nodup) ∧
    (errorRun statusWitEnv statusWitState).docs = statusWitState.docs ∧
    (∃ st, docStatus (onepageRun statusWitEnv statusWitState) 1 = some st ∧
      allowedStep Status.unprocessed st) :=
  ⟨by decide,
    (statusTransitions_monotone statusWitState statusWitEnv (by decide)).2.1,
    (statusTransitions_monotone statusWitState statusWitEnv (by decide)).1
      statusWitDoc (by decide)⟩

lemma transcribe_error_ne_empty {r : ApiResult} (h : isBlocked r = false) :
    transcribe_error r ≠ "" := by
  cases r with
  | failure => decide
  | response n t =>
    cases n with
    | zero => cases h
    | succ m =>
      rw [transcribe_error]
      split
      · decide
      · assumption

/-- C7 (amended): provided the metadata page count does not exceed the
actual PDF page count, one error-recovery run with no dispatched page
blocked by the remote service records every missing page (persistence is
modelled as always succeeding), so a second run computes an empty
missing-page set and dispatches nothing. -/
theorem errorRecovery_idempotent (total actual : Nat) (recorded : List Nat)
    (resp : Nat → ApiResult) (htot : total ≤ actual)
    (hnb : ∀ p ∈ errorDispatched recorded total actual,
      isBlocked (resp p) = false) :
    get_missing_pages
      (recorded ++ errorSavedPages resp (errorDispatched recorded total actual))
      total = [] ∧
    errorDispatched
      (recorded ++ errorSavedPages resp (errorDispatched recorded total actual))
      total actual = [] := by
  have hmain : get_missing_pages
      (recorded ++ errorSavedPages resp (errorDispatched recorded total actual))
      total = [] := by
    rw [get_missing_pages, List.filter_eq_nil_iff]
    intro p hp
    rcases List.mem_range'_1.mp hp with ⟨h1, h2⟩
    rw [decide_eq_true_eq, not_not]
    rw [mem_existingPages (by omega), List.mem_append]
    by_cases hrec : p ∈ recorded
    · exact Or.inl hrec
    · refine Or.inr ?_
      have hmiss : p ∈ get_missing_pages recorded total :=
        mem_get_missing_pages.mpr ⟨h1, by omega, hrec⟩
      have hdisp : p ∈ errorDispatched recorded total actual :=
        List.mem_filter.mpr ⟨hmiss, decide_eq_true (by omega)⟩
      have hne : transcribe_error (resp p) ≠ "" :=
        transcribe_error_ne_empty (hnb p hdisp)
      refine List.mem_filterMap.mpr ⟨p, hdisp, ?_⟩
      simp [hne]
  exact ⟨hmain, by rw [errorDispatched, hmain]; rfl⟩

/-- C7 (counterexample): with metadata `total_pages = 2` but an actual PDF of
1 page, the only dispatched page (page 1) yields text and is persisted, yet
the second run's missing-page set is `[2]`, not empty — the run "completes
with no blocked page" because page 2 is silently never dispatched. -/
theorem errorRecovery_idempotent_counterexample :
    errorDispatched [] 2 1 = [1] ∧
    ((errorDispatched [] 2 1).all (fun p => !(isBlocked (idemCexResp p)))) = true ∧
    errorSavedPages idemCexResp (errorDispatched [] 2 1) = [1] ∧
    get_missing_pages
      ([] ++ errorSavedPages idemCexResp (errorDispatched [] 2 1)) 2 = [2] := by
  decide

/-- C7 (witness): the amended idempotence statement at `total = 2`,
`actual = 3`, recorded pages `[1]`. -/
theorem errorRecovery_idempotent_witness :
    (2 ≤ 3 ∧ ∀ p ∈ errorDispatched [1] 2 3, isBlocked (idemWitResp p) = false) ∧
    (get_missing_pages
        ([1] ++ errorSavedPages idemWitResp (errorDispatched [1] 2 3)) 2 = [] ∧
      errorDispatched
        ([1] ++ errorSavedPages idemWitResp (errorDispatched [1] 2 3)) 2 3 = []) :=
  ⟨⟨by decide, by decide⟩,
    errorRecovery_idempotent 2 3 [1] idemWitResp (by decide) (by decide)⟩

/-- C8 (counterexample): the record persisted by `transcribe_document.py`
contains no document id, so bulk deletion by the source document's id (here
7) removes nothing — the record survives. -/
theorem transRecord_documentId_counterexample :
    (save_to_supabase_document "t" 1 2 "f").documentId = none ∧
    deleteTranscriptionsFor 7 [save_to_supabase_document "t" 1 2 "f"] =
      [save_to_supabase_document "t" 1 2 "f"] := by
  decide

/-- C8 (amended): the records persisted by the one-page, error-recovery and
twopage pipelines carry the source document's id, and bulk deletion by
document id removes exactly the rows carrying that id — hence every record
those pipelines ever inserted for the document; `transcribe_document.py`'s
records carry no document id and are missed (see the counterexample). -/
theorem transRecord_documentId :
    (∀ t p fn i, (save_to_firestore t p fn i).documentId = some i) ∧
    (∀ t p fn i, (save_to_supabase_twopage t p fn i).documentId = some i) ∧
    (∀ i rows r, r ∈ deleteTranscriptionsFor i rows → r.documentId ≠ some i) ∧
    (∀ i rows r, r ∈ rows → r.documentId ≠ some i →
      r ∈ deleteTranscriptionsFor i rows) := by
  refine ⟨fun _ _ _ _ => rfl, fun _ _ _ _ => rfl, ?_, ?_⟩
  · intro i rows r hr
    exact of_decide_eq_true (List.mem_filter.mp hr).2
  · intro i rows r hr hne
    exact List.mem_filter.mpr ⟨hr, decide_eq_true hne⟩

/-- C8 (witness): the amended statement at a concrete row and id. -/
theorem transRecord_documentId_witness :
    (save_to_firestore "x" 2 "f" 7).documentId = some 7 ∧
    save_to_firestore "x" 2 "f" 9 ∈
      deleteTranscriptionsFor 7 [save_to_firestore "x" 2 "f" 9] :=
  ⟨transRecord_documentId.1 "x" 2 "f" 7,
    transRecord_documentId.2.2.2 7 [save_to_firestore "x" 2 "f" 9]
      (save_to_firestore "x" 2 "f" 9) (by decide) (by decide)⟩

/-- C9: when listing the recorded pages raises, `get_missing_pages` returns
`[]`, and `process_error_pages` then treats the document as fully processed
and skips it — the very decision it takes for a genuinely complete document,
so the two cases are indistinguishable at the caller. -/
theorem lookupFailure_indistinguishable (total : Nat) (recordedAll : List Nat)
    (hall : ∀ p ∈ List.range' 1 total, p ∈ recordedAll) :
    get_missing_pages_result (Except.error ()) total = [] ∧
    errorDocDecision (Except.error ()) total = DocAction.skipComplete ∧
    errorDocDecision (Except.error ()) total =
      errorDocDecision (Except.ok recordedAll) total := by
  have hmiss : get_missing_pages recordedAll total = [] := by
    rw [get_missing_pages, List.filter_eq_nil_iff]
    intro p hp
    rcases List.mem_range'_1.mp hp with ⟨h1, _⟩
    rw [decide_eq_true_eq, not_not]
    exact (mem_existingPages (by omega)).mpr (hall p hp)
  refine ⟨rfl, rfl, ?_⟩
  simp [errorDocDecision, get_missing_pages_result, hmiss]

/-- C9 (witness): the lookup-failure statement at `total = 2` with all pages
recorded. -/
theorem lookupFailure_indistinguishable_witness :
    (∀ p ∈ List.range' 1 2, p ∈ ([2, 1] : List Nat)) ∧
    (get_missing_pages_result (Except.error ()) 2 = [] ∧
      errorDocDecision (Except.error ()) 2 = DocAction.skipComplete ∧
      errorDocDecision (Except.error ()) 2 =
        errorDocDecision (Except.ok [2, 1]) 2) :=
  ⟨by decide, lookupFailure_indistinguishable 2 [2, 1] (by decide)⟩

/-- C10: invoked with an argument count other than exactly two positional
arguments (`len(sys.argv) != 3`, the script name included), the workbook
entry point prints the usage message and exits with status 1, and never
reaches `process_workbook`. -/
theorem workbookCli_usage (argv : List String) (h : argv.length ≠ 3) :
    workbookMain argv = CliOutcome.usageExit 1 ∧
    ∀ t f, workbookMain argv ≠ CliOutcome.runWorkbook t f := by
  constructor
  · rw [workbookMain, if_pos h]
  · intro t f
    rw [workbookMain, if_pos h]
    intro hc
    cases hc

/-- C10 (witness): the CLI statement with a single argument. -/
theorem workbookCli_usage_witness :
    ((["transcribe_workbook.py"] : List String).length ≠ 3) ∧
    (workbookMain ["transcribe_workbook.py"] = CliOutcome.usageExit 1 ∧
      ∀ t f, workbookMain ["transcribe_workbook.py"] ≠
        CliOutcome.runWorkbook t f) :=
  ⟨by decide, workbookCli_usage ["transcribe_workbook.py"] (by decide)⟩

